import Mathlib

/-!
The swissknife spider boilerplate generator

Verification development for `tools/cli/swissknife.go`.

The program reads three string flags, refuses an empty name, and otherwise
renders the constant `spiderTemplate` with Go's `html/template` onto standard
output.  Go strings are embedded as Lean `String`s (sequences of runes) and are
processed as `List Char`.  The runes the HTML escaper replaces are ASCII, so on
UTF-8 text replacing runes and replacing bytes give the same result.

The Go standard library is not part of the repository.  The parts of
`flag`, `text/template` and `html/template` that `main` exercises are embedded
as the fragment below: templates whose actions are single field references
`.Ident` and whose text never leaves the HTML text context.  Anything outside
that fragment is rejected by the embedding with an error.
-/

namespace Swissknife

/-! ## Constants and types of `swissknife.go` -/

/-- The constant `spiderTemplate` (a raw string literal, lines 19-38). -/
def spiderTemplate : String :=
  "\n# -*- coding: utf-8 -*-\n\n\"\"\"\x7b\x7b .Name \x7d\x7d.\n\n\x7b\x7b .Doc \x7d\x7d\n\n\"\"\"\n\nimport scrapy\n\n\nclass \x7b\x7b .Name \x7d\x7dSpider(scrapy.Spider):\n\n    name = \x27\x7b\x7b .Name \x7d\x7d\x27\n    start_urls = [ \x7b\x7b .URL \x7d\x7d ]\n\n    def parse(self, response):\n        print(response.body)\n"

/-- The struct `Spider`: the three text fields handed to the template. -/
structure Spider where
  Name : String
  Doc : String
  URL : String
  deriving DecidableEq, Repr

/-! ## `flag`: the parsed command line -/

/-- The outcome of `flag.Parse()`: for each flag name, the value the command
line gave it, or `none` when the flag does not occur on the command line. -/
abbrev CommandLine := String → Option String

/-- The call `flag.String(name, value, usage)` read after `flag.Parse()`: the value
from the command line, or the default `value` when the flag is omitted. -/
def flagString (cl : CommandLine) (name value : String) : String :=
  (cl name).getD value

/-! ## `text/template`: lexing and parsing -/

/-- Errors a template can raise while it is parsed, escaped or executed. -/
inductive TemplateError where
  /-- The text ends inside an action: a left delimiter without its right one. -/
  | unclosedAction
  /-- The body of an action is not a single field reference. -/
  | badAction (body : List Char)
  /-- The text leaves the HTML text context (it holds a `<`). -/
  | unsupportedContext
  /-- The data has no field of that name. -/
  | missingField (ident : List Char)
  deriving DecidableEq, Repr

/-- Escaper functions that `html/template` appends to a pipeline. -/
inductive Escaper where
  /-- The function `_html_template_htmlescaper`. -/
  | htmlescaper
  deriving DecidableEq, Repr

/-- Lexical items: literal text, or the body of an action between the delimiters. -/
inductive Item where
  | text (s : List Char)
  | action (body : List Char)
  deriving DecidableEq, Repr

/-- Nodes of a parsed template. -/
inductive Node where
  /-- Literal text, copied to the output. -/
  | text (s : List Char)
  /-- An action whose pipeline is a field of the data followed by escapers. -/
  | action (ident : List Char) (escapers : List Escaper)
  deriving DecidableEq, Repr

/-- The left delimiter is two of these. -/
def leftBrace : Char := Char.ofNat 0x7b

/-- The right delimiter is two of these. -/
def rightBrace : Char := Char.ofNat 0x7d

/-- A text item for the accumulated (reversed) text; no item for empty text. -/
def textItem (acc : List Char) : List Item :=
  if acc = [] then [] else [Item.text acc.reverse]

/-- The lexer: in text mode (`inAction = false`) it runs up to the next left
delimiter, in action mode up to the next right delimiter. `acc` is the text of
the current item, reversed. -/
def lexFrom : Bool → List Char → List Char → Except TemplateError (List Item)
  | false, acc, [] => .ok (textItem acc)
  | true, _, [] => .error .unclosedAction
  | false, acc, [c] => .ok (textItem (c :: acc))
  | true, _, [_] => .error .unclosedAction
  | false, acc, c :: d :: rest =>
    if c = leftBrace ∧ d = leftBrace then
      match lexFrom true [] rest with
      | .ok items => .ok (textItem acc ++ items)
      | .error e => .error e
    else lexFrom false (c :: acc) (d :: rest)
  | true, acc, c :: d :: rest =>
    if c = rightBrace ∧ d = rightBrace then
      match lexFrom false [] rest with
      | .ok items => .ok (Item.action acc.reverse :: items)
      | .error e => .error e
    else lexFrom true (c :: acc) (d :: rest)

/-- The lexer's `isSpace`: space, tab, carriage return, newline. -/
def isSpace (c : Char) : Bool :=
  c = ' ' ∨ c = '\t' ∨ c = '\r' ∨ c = '\n'

/-- The lexer's `isAlphaNumeric`, on ASCII: underscore, letter or digit. -/
def isAlphaNumeric (c : Char) : Bool :=
  c = '_' ∨ c.isAlpha ∨ c.isDigit

/-- Spaces around the body of an action are skipped. -/
def trimSpace (s : List Char) : List Char :=
  ((s.dropWhile isSpace).reverse.dropWhile isSpace).reverse

/-- Parse the body of an action: a dot followed by an identifier that does not
start with a digit. -/
def parseAction (body : List Char) : Except TemplateError Node :=
  match trimSpace body with
  | d :: c :: rest =>
    if d = '.' ∧ ¬ c.isDigit ∧ (c :: rest).all isAlphaNumeric then
      .ok (Node.action (c :: rest) [])
    else .error (.badAction body)
  | _ => .error (.badAction body)

/-- Turn the items into nodes. -/
def parseItems : List Item → Except TemplateError (List Node)
  | [] => .ok []
  | Item.text s :: items =>
    match parseItems items with
    | .ok nodes => .ok (Node.text s :: nodes)
    | .error e => .error e
  | Item.action body :: items =>
    match parseAction body with
    | .error e => .error e
    | .ok node =>
      match parseItems items with
      | .ok nodes => .ok (node :: nodes)
      | .error e => .error e

/-- The call `template.New("spider").Funcs(fmap).Parse(text)` for an empty
function map. -/
def Parse (text : String) : Except TemplateError (List Node) :=
  match lexFrom false [] text.data with
  | .error e => .error e
  | .ok items => parseItems items

/-! ## `html/template`: contextual escaping and execution -/

/-- The table `htmlReplacementTable`: the replacement of a rune, the empty string
when the rune has none. -/
def htmlReplacementTable (r : Char) : String :=
  if r = Char.ofNat 0 then "\uFFFD"
  else if r = '"' then "&#34;"
  else if r = '&' then "&amp;"
  else if r = Char.ofNat 39 then "&#39;"
  else if r = '+' then "&#43;"
  else if r = '<' then "&lt;"
  else if r = '>' then "&gt;"
  else ""

/-- The function `htmlReplacer(s, htmlReplacementTable, true)`: every rune with a
non-empty replacement is replaced, every other rune is kept. -/
def htmlReplacer : List Char → List Char
  | [] => []
  | r :: s =>
    (if (htmlReplacementTable r).data = [] then [r] else (htmlReplacementTable r).data)
      ++ htmlReplacer s

/-- The function `htmlEscaper` on a plain string value. -/
def htmlEscaper (s : String) : String :=
  ⟨htmlReplacer s.data⟩

/-- Run one escaper. -/
def Escaper.apply : Escaper → String → String
  | .htmlescaper, s => htmlEscaper s

/-- Run the escapers of a pipeline, in order. -/
def applyEscapers (escapers : List Escaper) (s : String) : String :=
  escapers.foldl (fun v e => e.apply v) s

/-- The escaping pass over a template that starts in the HTML text context: text
without `<` keeps the context, and an action in that context gets the HTML
escaper appended to its pipeline. -/
def escapeTemplate : List Node → Except TemplateError (List Node)
  | [] => .ok []
  | Node.text s :: nodes =>
    if '<' ∈ s then .error .unsupportedContext
    else
      match escapeTemplate nodes with
      | .ok nodes2 => .ok (Node.text s :: nodes2)
      | .error e => .error e
  | Node.action ident escapers :: nodes =>
    match escapeTemplate nodes with
    | .ok nodes2 => .ok (Node.action ident (escapers ++ [Escaper.htmlescaper]) :: nodes2)
    | .error e => .error e

/-- Field lookup on a `*Spider`. -/
def lookupField (data : Spider) (ident : List Char) : Option String :=
  if ident = "Name".data then some data.Name
  else if ident = "Doc".data then some data.Doc
  else if ident = "URL".data then some data.URL
  else none

/-- Walk the nodes, writing to the sink `wr`; returns what the sink holds and the
error that stopped the walk, if any. -/
def walk (data : Spider) : List Node → List Char → List Char × Option TemplateError
  | [], wr => (wr, none)
  | Node.text s :: nodes, wr => walk data nodes (wr ++ s)
  | Node.action ident escapers :: nodes, wr =>
    match lookupField data ident with
    | none => (wr, some (.missingField ident))
    | some v => walk data nodes (wr ++ (applyEscapers escapers v).data)

/-- The method `t.Execute(wr, data)`: escape the template, then walk it. -/
def Execute (t : List Node) (wr : List Char) (data : Spider) :
    List Char × Option TemplateError :=
  match escapeTemplate t with
  | .error e => (wr, some e)
  | .ok t2 => walk data t2 wr

/-! ## `main` -/

/-- How the process ends. -/
inductive Outcome where
  /-- The call `os.Exit(code)`, or return from `main` with code 0. -/
  | exit (code : Nat)
  /-- The call `panic(err)`. -/
  | panic (err : TemplateError)
  deriving DecidableEq, Repr

/-- What one run of the program does: the bytes it writes to standard output and
to standard error, and how it ends. -/
structure Run where
  stdout : String
  stderr : String
  outcome : Outcome
  deriving DecidableEq, Repr

/-- The function `main`. `fmt.Printf` writes to standard output. -/
def main (cl : CommandLine) : Run :=
  let spiderName := flagString cl "name" ""
  let spiderDoc := flagString cl "doc" ""
  let spiderURL := flagString cl "url" "www.example.com"
  if spiderName = "" then
    { stdout := "error: a spider needs a name\n", stderr := "", outcome := .exit 1 }
  else
    let spider : Spider := { Name := spiderName, Doc := spiderDoc, URL := spiderURL }
    match Parse spiderTemplate with
    | .error err => { stdout := "", stderr := "", outcome := .panic err }
    | .ok t =>
      match Execute t [] spider with
      | (out, some err) => { stdout := ⟨out⟩, stderr := "", outcome := .panic err }
      | (out, none) => { stdout := ⟨out⟩, stderr := "", outcome := .exit 0 }

/-- The template renderer: lines 70-78 of `main` as a function of the `Spider`,
the rendered text or the error `main` panics with. -/
def render (spider : Spider) : Except TemplateError String :=
  match Parse spiderTemplate with
  | .error err => .error err
  | .ok t =>
    match Execute t [] spider with
    | (_, some err) => .error err
    | (out, none) => .ok ⟨out⟩

/-! ## The literal segments of the template and its placeholders -/

/-- Text before the first placeholder: coding header and docstring opener. -/
def segment0 : String := "\n# -*- coding: utf-8 -*-\n\n\"\"\""

/-- Text between the first `.Name` and `.Doc`. -/
def segment1 : String := ".\n\n"

/-- Text between `.Doc` and the second `.Name`: docstring tail, the scrapy
line and the class keyword. -/
def segment2 : String := "\n\n\"\"\"\n\nimport scrapy\n\n\nclass "

/-- Text between the second and the third `.Name`. -/
def segment3 : String := "Spider(scrapy.Spider):\n\n    name = \x27"

/-- Text between the third `.Name` and `.URL`. -/
def segment4 : String := "\x27\n    start_urls = [ "

/-- Text after `.URL`: the end of the list and the parse function. -/
def segment5 : String := " ]\n\n    def parse(self, response):\n        print(response.body)\n"

/-- The placeholder for the name, as the template spells it. -/
def placeholderName : String := "\x7b\x7b .Name \x7d\x7d"

/-- The placeholder for the description, as the template spells it. -/
def placeholderDoc : String := "\x7b\x7b .Doc \x7d\x7d"

/-- The placeholder for the start location, as the template spells it. -/
def placeholderURL : String := "\x7b\x7b .URL \x7d\x7d"

/-- The six marker texts: the spec's spellings and the template's own. -/
def markers : List String :=
  ["\x7b\x7bName\x7d\x7d", "\x7b\x7bDoc\x7d\x7d", "\x7b\x7bURL\x7d\x7d",
   placeholderName, placeholderDoc, placeholderURL]

/-- The text `sub` occurs in `s` as a contiguous substring. -/
def occursIn (sub s : String) : Prop := sub.data <:+: s.data

instance (sub s : String) : Decidable (occursIn sub s) :=
  inferInstanceAs (Decidable (sub.data <:+: s.data))

/-- The lines of a text: the pieces between newlines. -/
def splitLines : List Char → List (List Char)
  | [] => [[]]
  | c :: cs =>
    if c = '\n' then [] :: splitLines cs
    else
      match splitLines cs with
      | [] => [[c]]
      | l :: ls => (c :: l) :: ls

/-- The text `line` is one of the lines of `s`. -/
def hasLine (s line : String) : Prop := line.data ∈ splitLines s.data

/-- The seven runes that `htmlReplacementTable` replaces: NUL, the double quote,
the ampersand, the single quote, plus, less-than and greater-than. -/
def htmlSpecial (c : Char) : Prop :=
  c = Char.ofNat 0 ∨ c = '"' ∨ c = '&' ∨ c = Char.ofNat 39 ∨ c = '+' ∨ c = '<' ∨ c = '>'

instance (c : Char) : Decidable (htmlSpecial c) := by
  unfold htmlSpecial; infer_instance

/-- No rune of the text is one of the seven that get replaced. -/
def htmlPlain (s : String) : Prop := ∀ c ∈ s.data, ¬ htmlSpecial c

instance (s : String) : Decidable (htmlPlain s) := by
  unfold htmlPlain; infer_instance

/-- The spec's substitution, by scanning the template text: each occurrence of a
placeholder is replaced by the raw value of its field, all other text is
copied. `skip` counts the runes of a placeholder still to be passed over. -/
def substituteRaw (data : Spider) : Nat → List Char → List Char
  | _, [] => []
  | skip + 1, _ :: rest => substituteRaw data skip rest
  | 0, c :: rest =>
    if placeholderName.data.isPrefixOf (c :: rest) then
      data.Name.data ++ substituteRaw data (placeholderName.data.length - 1) rest
    else if placeholderDoc.data.isPrefixOf (c :: rest) then
      data.Doc.data ++ substituteRaw data (placeholderDoc.data.length - 1) rest
    else if placeholderURL.data.isPrefixOf (c :: rest) then
      data.URL.data ++ substituteRaw data (placeholderURL.data.length - 1) rest
    else c :: substituteRaw data 0 rest

/-- The spec's rendering: the template with every placeholder replaced by the raw
field value. -/
def rawRender (data : Spider) : String :=
  ⟨substituteRaw data 0 spiderTemplate.data⟩

/-- The replacement of one rune as the escaping rule states it. -/
def escapedRune (c : Char) : String :=
  if c = '&' then "&amp;"
  else if c = '<' then "&lt;"
  else if c = '>' then "&gt;"
  else if c = '"' then "&#34;"
  else if c = Char.ofNat 39 then "&#39;"
  else if c = '+' then "&#43;"
  else if c = Char.ofNat 0 then "\uFFFD"
  else ⟨[c]⟩

/-- A command line from optional values of the three flags. -/
def commandLine (name doc url : Option String) : CommandLine := fun flag =>
  if flag = "name" then name
  else if flag = "doc" then doc
  else if flag = "url" then url
  else none

/-- The template with the HTML-escaped field values at its placeholders. -/
def escapedRender (data : Spider) : String :=
  segment0 ++ htmlEscaper data.Name ++ segment1 ++ htmlEscaper data.Doc
    ++ segment2 ++ htmlEscaper data.Name ++ segment3 ++ htmlEscaper data.Name ++ segment4
    ++ htmlEscaper data.URL ++ segment5

/-- The `Spider` that `main` builds from the flags (lines 50-68). -/
def spiderOf (cl : CommandLine) : Spider :=
  { Name := flagString cl "name" "", Doc := flagString cl "doc" "",
    URL := flagString cl "url" "www.example.com" }

/-- The docstring delimiter of the generated text. -/
def tripleQuote : String := "\"\"\""

/-- What the proofs use of a marker text: it starts with a left brace, ends with a
right brace, and holds no newline, no U+FFFD and none of the seven replaced
runes. -/
def markerLike (m : List Char) : Prop :=
  m.head? = some leftBrace ∧ m.getLast? = some rightBrace ∧ '\n' ∉ m ∧
    Char.ofNat 0xFFFD ∉ m ∧ ∀ c ∈ m, ¬ htmlSpecial c

instance (m : List Char) : Decidable (markerLike m) := by
  unfold markerLike; infer_instance

/-- The six literal segments, in template order. -/
def segments : List String :=
  [segment0, segment1, segment2, segment3, segment4, segment5]

/-- The command line of the usage example in the package comment (line 9). -/
def usageExample : CommandLine :=
  commandLine (some "MarineTraffic") (some "scrape MT") (some "www.mt.com")

/-- A `Spider` whose three fields each hold runes that get replaced. -/
def escapedExample : Spider :=
  { Name := "A<B", Doc := "it\x27s 1+1", URL := "http://x.com/?a=1&b=2" }

/-- A command line whose description spells a marker. -/
def markerExample : CommandLine :=
  commandLine (some "x") (some "\x7b\x7bDoc\x7d\x7d") none

/-- The two marker texts for the description: the spec's spelling and the
template's own. -/
def docMarkers : List String := ["\x7b\x7bDoc\x7d\x7d", placeholderDoc]

/-- A command line without the doc flag whose name holds a replaced rune. -/
def docOmittedEscaped : CommandLine :=
  commandLine (some "A<B") none (some "www.mt.com")

/-- A command line without the doc flag whose name spells the placeholder for the
description. -/
def docOmittedMarker : CommandLine :=
  commandLine (some "\x7b\x7b .Doc \x7d\x7d") none (some "www.mt.com")

/-! ## Evaluating the pipeline on the fixed template -/

/-- The nodes of the fixed template. -/
def spiderNodes : List Node :=
  [Node.text segment0.data, Node.action "Name".data [], Node.text segment1.data,
   Node.action "Doc".data [], Node.text segment2.data, Node.action "Name".data [],
   Node.text segment3.data, Node.action "Name".data [], Node.text segment4.data,
   Node.action "URL".data [], Node.text segment5.data]

theorem Parse_spiderTemplate : Parse spiderTemplate = .ok spiderNodes := by
  rfl

theorem Execute_spiderNodes (s : Spider) (wr : List Char) :
    Execute spiderNodes wr s = (wr ++ (escapedRender s).data, none) := by
  have h : Execute spiderNodes wr s = (wr ++ segment0.data ++ (htmlEscaper s.Name).data
      ++ segment1.data ++ (htmlEscaper s.Doc).data ++ segment2.data
      ++ (htmlEscaper s.Name).data ++ segment3.data ++ (htmlEscaper s.Name).data
      ++ segment4.data ++ (htmlEscaper s.URL).data ++ segment5.data, none) := rfl
  rw [h]
  simp only [escapedRender, String.data_append, List.append_assoc]

theorem render_eq (s : Spider) : render s = .ok (escapedRender s) := by
  rfl

theorem main_of_empty (cl : CommandLine) (h : flagString cl "name" "" = "") :
    main cl = { stdout := "error: a spider needs a name\n", stderr := "",
                outcome := .exit 1 } := by
  unfold main
  simp only [h, if_true]

theorem main_of_nonempty (cl : CommandLine) (h : flagString cl "name" "" ≠ "") :
    main cl = { stdout := escapedRender (spiderOf cl), stderr := "",
                outcome := .exit 0 } := by
  unfold main
  simp only [h, if_false]
  rfl

set_option maxRecDepth 4000 in
theorem rawRender_eq (s : Spider) :
    rawRender s = segment0 ++ s.Name ++ segment1 ++ s.Doc
      ++ segment2 ++ s.Name ++ segment3 ++ s.Name ++ segment4
      ++ s.URL ++ segment5 := by
  have h : (rawRender s).data = segment0.data ++ (s.Name.data ++ (segment1.data ++
      (s.Doc.data ++ (segment2.data ++ (s.Name.data ++ (segment3.data ++ (s.Name.data ++
      (segment4.data ++ (s.URL.data ++ segment5.data))))))))) := rfl
  apply String.ext
  rw [h]
  simp only [String.data_append, List.append_assoc]

/-! ## Facts about `htmlReplacer` -/

theorem htmlReplacementTable_plain {c : Char} (h : ¬ htmlSpecial c) :
    (htmlReplacementTable c).data = [] := by
  simp only [htmlSpecial, not_or] at h
  obtain ⟨h0, h1, h2, h3, h4, h5, h6⟩ := h
  simp [htmlReplacementTable, h0, h1, h2, h3, h4, h5, h6]

theorem htmlReplacer_cons_plain {c : Char} (l : List Char) (h : ¬ htmlSpecial c) :
    htmlReplacer (c :: l) = c :: htmlReplacer l := by
  simp [htmlReplacer, htmlReplacementTable_plain h]

theorem htmlReplacer_cons_special {c : Char} (l : List Char) (h : htmlSpecial c) :
    htmlReplacer (c :: l) = (htmlReplacementTable c).data ++ htmlReplacer l ∧
      (htmlReplacementTable c).data ≠ [] ∧
      ((htmlReplacementTable c).data.head? ≠ some c ∨
        2 ≤ (htmlReplacementTable c).data.length) ∧
      ∀ d ∈ (htmlReplacementTable c).data, d ≠ leftBrace := by
  rcases h with h | h | h | h | h | h | h <;> subst h <;>
    simp [htmlReplacer, htmlReplacementTable, leftBrace]

theorem length_le_htmlReplacer (l : List Char) : l.length ≤ (htmlReplacer l).length := by
  induction l with
  | nil => simp [htmlReplacer]
  | cons c l ih =>
    by_cases h : htmlSpecial c
    · obtain ⟨h1, h2, _, _⟩ := htmlReplacer_cons_special l h
      rw [h1, List.length_append, List.length_cons]
      have : 0 < (htmlReplacementTable c).data.length := List.length_pos.2 h2
      omega
    · rw [htmlReplacer_cons_plain l h]
      simp only [List.length_cons]
      omega

theorem htmlReplacer_eq_self_iff (l : List Char) :
    htmlReplacer l = l ↔ ∀ c ∈ l, ¬ htmlSpecial c := by
  induction l with
  | nil => simp [htmlReplacer]
  | cons c l ih =>
    by_cases h : htmlSpecial c
    · obtain ⟨h1, h2, h3, _⟩ := htmlReplacer_cons_special l h
      constructor
      · intro heq
        exfalso
        rw [h1] at heq
        cases hd : (htmlReplacementTable c).data with
        | nil => exact h2 hd
        | cons d t =>
          rw [hd] at heq h3
          simp only [List.cons_append, List.cons.injEq] at heq
          rcases h3 with h3 | h3
          · exact h3 (by simp [heq.1])
          · have hlen := congrArg List.length heq.2
            have hle := length_le_htmlReplacer l
            simp only [List.length_append, List.length_cons] at hlen h3
            omega
      · intro hall
        exact absurd h (hall c (List.mem_cons_self _ _))
    · rw [htmlReplacer_cons_plain l h]
      simp only [List.cons.injEq, true_and, List.mem_cons, forall_eq_or_imp, h,
        not_false_eq_true, ih]

theorem htmlReplacer_eq_flatMap (l : List Char) :
    htmlReplacer l = l.flatMap (fun c => (escapedRune c).data) := by
  induction l with
  | nil => rfl
  | cons c l ih =>
    rw [List.flatMap_cons, ← ih]
    by_cases h : htmlSpecial c
    · rw [(htmlReplacer_cons_special l h).1]
      congr 1
      rcases h with h | h | h | h | h | h | h <;> subst h <;> rfl
    · rw [htmlReplacer_cons_plain l h]
      simp only [htmlSpecial, not_or] at h
      obtain ⟨h0, h1, h2, h3, h4, h5, h6⟩ := h
      simp [escapedRune, h0, h1, h2, h3, h4, h5, h6]

theorem htmlEscaper_eq_self_iff (x : String) : htmlEscaper x = x ↔ htmlPlain x := by
  unfold htmlPlain
  rw [← htmlReplacer_eq_self_iff]
  constructor
  · intro h
    exact congrArg String.data h
  · intro h
    exact String.ext h

theorem escapedRender_eq_rawRender_iff (s : Spider) :
    escapedRender s = rawRender s ↔ htmlPlain s.Name ∧ htmlPlain s.Doc ∧ htmlPlain s.URL := by
  constructor
  · intro heq
    have h := congrArg String.data heq
    rw [rawRender_eq] at h
    simp only [escapedRender, String.data_append, htmlEscaper, List.append_assoc] at h
    have lN := length_le_htmlReplacer s.Name.data
    have lD := length_le_htmlReplacer s.Doc.data
    have lU := length_le_htmlReplacer s.URL.data
    have hlen := congrArg List.length h
    simp only [List.length_append] at hlen
    obtain ⟨eN, h⟩ := List.append_inj (List.append_cancel_left h) (by omega)
    obtain ⟨eD, h⟩ := List.append_inj (List.append_cancel_left h) (by omega)
    obtain ⟨_, h⟩ := List.append_inj (List.append_cancel_left h) (by omega)
    obtain ⟨_, h⟩ := List.append_inj (List.append_cancel_left h) (by omega)
    obtain ⟨eU, _⟩ := List.append_inj (List.append_cancel_left h) (by omega)
    exact ⟨(htmlReplacer_eq_self_iff _).1 eN, (htmlReplacer_eq_self_iff _).1 eD,
      (htmlReplacer_eq_self_iff _).1 eU⟩
  · rintro ⟨hN, hD, hU⟩
    rw [rawRender_eq, escapedRender, (htmlEscaper_eq_self_iff _).2 hN,
      (htmlEscaper_eq_self_iff _).2 hD, (htmlEscaper_eq_self_iff _).2 hU]

/-! ## Marker texts in the rendered text -/

theorem prefix_of_prefix_append_barrier {M X B : List Char} {c : Char} (hc : c ∉ M) :
    M <+: X ++ c :: B → M <+: X := by
  induction X generalizing M with
  | nil =>
    intro h
    rw [List.nil_append] at h
    rcases List.prefix_cons_iff.1 h with h | ⟨t, ht, _⟩
    · subst h; exact List.nil_prefix
    · exact absurd (ht ▸ List.mem_cons_self _ _) hc
  | cons x X ih =>
    intro h
    rw [List.cons_append] at h
    rcases List.prefix_cons_iff.1 h with h | ⟨t, ht, hpre⟩
    · subst h; exact List.nil_prefix
    · subst ht
      exact List.cons_prefix_cons.2
        ⟨rfl, ih (fun hm => hc (List.mem_cons_of_mem _ hm)) hpre⟩

theorem infix_of_infix_append_barrier {M A B : List Char} {c : Char} (hc : c ∉ M) :
    M <:+: A ++ c :: B → M <:+: A ∨ M <:+: B := by
  induction A with
  | nil =>
    intro h
    rw [List.nil_append] at h
    rcases List.infix_cons_iff.1 h with h | h
    · exact Or.inl (prefix_of_prefix_append_barrier (X := []) hc h).isInfix
    · exact Or.inr h
  | cons a A ih =>
    intro h
    rw [List.cons_append] at h
    rcases List.infix_cons_iff.1 h with h | h
    · exact Or.inl (prefix_of_prefix_append_barrier (X := a :: A) hc h).isInfix
    · rcases ih h with h | h
      · exact Or.inl (List.infix_cons h)
      · exact Or.inr h

theorem infix_strip_left {M pre Y : List Char} {a : Char} (hM : M.head? = some a)
    (hpre : a ∉ pre) : M <:+: pre ++ Y → M <:+: Y := by
  induction pre with
  | nil => intro h; simpa using h
  | cons p pre ih =>
    intro h
    rw [List.cons_append] at h
    rcases List.infix_cons_iff.1 h with h | h
    · exfalso
      rcases List.prefix_cons_iff.1 h with h | ⟨t, ht, _⟩
      · subst h; simp at hM
      · subst ht
        simp only [List.head?_cons, Option.some.injEq] at hM
        exact hpre (hM ▸ List.mem_cons_self _ _)
    · exact ih (fun hm => hpre (List.mem_cons_of_mem _ hm)) h

theorem infix_strip_right {M Y post : List Char} {z : Char} (hM : M.getLast? = some z)
    (hpost : z ∉ post) : M <:+: Y ++ post → M <:+: Y := by
  intro h
  have h2 := List.reverse_infix.2 h
  rw [List.reverse_append] at h2
  exact List.reverse_infix.1
    (infix_strip_left (by rw [List.head?_reverse]; exact hM) (by simpa using hpost) h2)

theorem htmlReplacementTable_head {c : Char} (h : htmlSpecial c) :
    ∃ b r, (htmlReplacementTable c).data = b :: r ∧
      (b = '&' ∨ b = Char.ofNat 0xFFFD) ∧ leftBrace ∉ r := by
  rcases h with h | h | h | h | h | h | h <;> subst h <;>
    exact ⟨_, _, rfl, by decide, by decide⟩

theorem htmlReplacer_cons_head (c : Char) (X : List Char) :
    ∃ b r, htmlReplacer (c :: X) = b :: (r ++ htmlReplacer X) ∧
      (b = c ∨ b = '&' ∨ b = Char.ofNat 0xFFFD) ∧ leftBrace ∉ r ∧
      (htmlSpecial c → b ≠ c ∨ r ≠ []) := by
  by_cases hs : htmlSpecial c
  · obtain ⟨b, r, hbr, hb, hr⟩ := htmlReplacementTable_head hs
    refine ⟨b, r, ?_, Or.inr hb, hr, ?_⟩
    · rw [(htmlReplacer_cons_special X hs).1, hbr, List.cons_append]
    · intro _
      rcases (htmlReplacer_cons_special X hs).2.2.1 with h | h
      · left
        intro hbc
        apply h
        rw [hbr, List.head?_cons, hbc]
      · right
        intro hr0
        rw [hbr, hr0] at h
        simp at h
  · exact ⟨c, [], by rw [htmlReplacer_cons_plain X hs, List.nil_append], Or.inl rfl,
      by simp, fun h => absurd h hs⟩

theorem prefix_of_prefix_htmlReplacer {M X : List Char} (hs : ∀ c ∈ M, ¬ htmlSpecial c)
    (hf : Char.ofNat 0xFFFD ∉ M) : M <+: htmlReplacer X → M <+: X := by
  induction X generalizing M with
  | nil => intro h; simpa [htmlReplacer] using h
  | cons c X ih =>
    intro h
    cases M with
    | nil => exact List.nil_prefix
    | cons m M =>
      by_cases hc : htmlSpecial c
      · exfalso
        obtain ⟨b, r, hbr, hb, _⟩ := htmlReplacementTable_head hc
        rw [(htmlReplacer_cons_special X hc).1, hbr, List.cons_append] at h
        have hmb := (List.cons_prefix_cons.1 h).1
        rcases hb with hb | hb
        · exact hs m (List.mem_cons_self _ _) (by rw [hmb, hb]; decide)
        · exact hf (by rw [← hb, ← hmb]; exact List.mem_cons_self _ _)
      · rw [htmlReplacer_cons_plain X hc] at h
        obtain ⟨hmc, hpre⟩ := List.cons_prefix_cons.1 h
        exact List.cons_prefix_cons.2 ⟨hmc,
          ih (fun d hd => hs d (List.mem_cons_of_mem _ hd))
            (fun hd => hf (List.mem_cons_of_mem _ hd)) hpre⟩

theorem infix_of_infix_htmlReplacer {M X : List Char} (hh : M.head? = some leftBrace)
    (hs : ∀ c ∈ M, ¬ htmlSpecial c) (hf : Char.ofNat 0xFFFD ∉ M) :
    M <:+: htmlReplacer X → M <:+: X := by
  induction X with
  | nil => intro h; simpa [htmlReplacer] using h
  | cons c X ih =>
    intro h
    obtain ⟨b, r, hbr, _, hr, _⟩ := htmlReplacer_cons_head c X
    have h2 := h
    rw [hbr] at h2
    rcases List.infix_cons_iff.1 h2 with h3 | h3
    · rw [← hbr] at h3
      exact (prefix_of_prefix_htmlReplacer hs hf h3).isInfix
    · exact List.infix_cons (ih (infix_strip_left hh hr h3))

theorem htmlReplacer_append (A B : List Char) :
    htmlReplacer (A ++ B) = htmlReplacer A ++ htmlReplacer B := by
  simp only [htmlReplacer_eq_flatMap, List.flatMap_append]

theorem htmlReplacer_keeps_occurrence {M X : List Char} (hs : ∀ c ∈ M, ¬ htmlSpecial c) :
    M <:+: X → M <:+: htmlReplacer X := by
  rintro ⟨A, B, rfl⟩
  rw [htmlReplacer_append, htmlReplacer_append, (htmlReplacer_eq_self_iff M).2 hs]
  exact ⟨_, _, rfl⟩

theorem infix_field_of_infix_piece {M : List Char} (hM : markerLike M)
    (pre X post : List Char) (hpre : leftBrace ∉ pre) (hpost : rightBrace ∉ post) :
    M <:+: pre ++ (htmlReplacer X ++ post) → M <:+: X := by
  intro h
  obtain ⟨hh, hl, _, hf, hs⟩ := hM
  exact infix_of_infix_htmlReplacer hh hs hf
    (infix_strip_right hl hpost (infix_strip_left hh hpre h))

theorem occurs_escapedRender_iff (s : Spider) (m : List Char) (hM : markerLike m) :
    m <:+: (escapedRender s).data ↔
      m <:+: s.Name.data ∨ m <:+: s.Doc.data ∨ m <:+: s.URL.data := by
  constructor
  · intro h
    have hdata : (escapedRender s).data =
        (segment0.data ++ (htmlReplacer s.Name.data ++ ".\n".data)) ++ '\n' ::
        (([] ++ (htmlReplacer s.Doc.data ++ [])) ++ '\n' ::
        (("\n\"\"\"\n\nimport scrapy\n\n\nclass ".data ++ (htmlReplacer s.Name.data
          ++ "Spider(scrapy.Spider):".data)) ++ '\n' ::
        (("\n    name = \x27".data ++ (htmlReplacer s.Name.data ++ "\x27".data)) ++ '\n' ::
        (("    start_urls = [ ".data ++ (htmlReplacer s.URL.data ++ " ]".data)) ++ '\n' ::
        ("\n    def parse(self, response):\n        print(response.body)\n".data ++
          (htmlReplacer [] ++ [])))))) := by
      simp only [escapedRender, String.data_append, htmlEscaper, List.append_assoc,
        List.nil_append, List.append_nil]
      rfl
    rw [hdata] at h
    have hn : '\n' ∉ m := hM.2.2.1
    rcases infix_of_infix_append_barrier hn h with h | h
    · exact Or.inl (infix_field_of_infix_piece hM _ _ _ (by decide) (by decide) h)
    rcases infix_of_infix_append_barrier hn h with h | h
    · exact Or.inr (Or.inl (infix_field_of_infix_piece hM _ _ _ (by decide) (by decide) h))
    rcases infix_of_infix_append_barrier hn h with h | h
    · exact Or.inl (infix_field_of_infix_piece hM _ _ _ (by decide) (by decide) h)
    rcases infix_of_infix_append_barrier hn h with h | h
    · exact Or.inl (infix_field_of_infix_piece hM _ _ _ (by decide) (by decide) h)
    rcases infix_of_infix_append_barrier hn h with h | h
    · exact Or.inr (Or.inr (infix_field_of_infix_piece hM _ _ _ (by decide) (by decide) h))
    · have h6 := infix_field_of_infix_piece hM _ _ _ (by decide) (by decide) h
      rw [List.infix_nil] at h6
      rw [h6] at hM
      exact absurd hM (by decide)
  · have hs := hM.2.2.2.2
    have hnorm : (escapedRender s).data = segment0.data ++ (htmlReplacer s.Name.data ++
        (segment1.data ++ (htmlReplacer s.Doc.data ++ (segment2.data ++
        (htmlReplacer s.Name.data ++ (segment3.data ++ (htmlReplacer s.Name.data ++
        (segment4.data ++ (htmlReplacer s.URL.data ++ segment5.data))))))))) := by
      simp only [escapedRender, String.data_append, htmlEscaper, List.append_assoc]
    rw [hnorm]
    rintro (h | h | h)
    · exact (htmlReplacer_keeps_occurrence hs h).trans (List.infix_append' _ _ _)
    · refine (htmlReplacer_keeps_occurrence hs h).trans
        ⟨segment0.data ++ (htmlReplacer s.Name.data ++ segment1.data),
          segment2.data ++ (htmlReplacer s.Name.data ++ (segment3.data ++
          (htmlReplacer s.Name.data ++ (segment4.data ++ (htmlReplacer s.URL.data
          ++ segment5.data))))), ?_⟩
      simp only [List.append_assoc]
    · refine (htmlReplacer_keeps_occurrence hs h).trans
        ⟨segment0.data ++ (htmlReplacer s.Name.data ++ (segment1.data ++
          (htmlReplacer s.Doc.data ++ (segment2.data ++ (htmlReplacer s.Name.data ++
          (segment3.data ++ (htmlReplacer s.Name.data ++ segment4.data))))))),
          segment5.data, ?_⟩
      simp only [List.append_assoc]

theorem markerLike_markers : ∀ m ∈ markers, markerLike m.data := by
  decide

/-! ## Lines of a text -/

theorem splitLines_line_append (line b : List Char) (hline : '\n' ∉ line) :
    splitLines (line ++ '\n' :: b) = line :: splitLines b := by
  induction line with
  | nil => simp [splitLines]
  | cons c t ih =>
    have hc : c ≠ '\n' := fun h => hline (h ▸ List.mem_cons_self _ _)
    have ht : '\n' ∉ t := fun h => hline (List.mem_cons_of_mem _ h)
    show splitLines (c :: (t ++ '\n' :: b)) = _
    rw [splitLines, if_neg hc, ih ht]

theorem mem_tail_splitLines (a line b : List Char) (hline : '\n' ∉ line) :
    line ∈ (splitLines (a ++ '\n' :: (line ++ '\n' :: b))).tail := by
  induction a with
  | nil =>
    simp only [List.nil_append, splitLines, if_true, List.tail_cons,
      splitLines_line_append line b hline]
    exact List.mem_cons_self _ _
  | cons c a ih =>
    by_cases hc : c = '\n'
    · simp only [List.cons_append, splitLines, hc, if_true, List.tail_cons]
      exact List.mem_of_mem_tail ih
    · simp only [List.cons_append, splitLines, hc, if_false]
      cases hs : splitLines (a ++ '\n' :: (line ++ '\n' :: b)) with
      | nil => rw [hs] at ih; simp at ih
      | cons l ls =>
        rw [hs] at ih
        simpa using ih

theorem hasLine_of_data_eq (s line : String) (a b : List Char) (hline : '\n' ∉ line.data)
    (h : s.data = a ++ '\n' :: (line.data ++ '\n' :: b)) : hasLine s line := by
  unfold hasLine
  rw [h]
  exact List.mem_of_mem_tail (mem_tail_splitLines a line.data b hline)

theorem quote_not_mem_htmlReplacer (l : List Char) : '"' ∉ htmlReplacer l := by
  induction l with
  | nil => simp [htmlReplacer]
  | cons c t ih =>
    by_cases hs : htmlSpecial c
    · rw [(htmlReplacer_cons_special t hs).1, List.mem_append]
      rintro (h | h)
      · rcases hs with hs | hs | hs | hs | hs | hs | hs <;> subst hs <;>
          simp [htmlReplacementTable] at h
      · exact ih h
    · rw [htmlReplacer_cons_plain t hs, List.mem_cons]
      rintro (h | h)
      · exact hs (Or.inr (Or.inl h.symm))
      · exact ih h

/-! ## The claims -/

/-- C1, as stated, fails: for the `Spider` with Name `A<B`, a Doc with a quote
and a plus and a URL with an ampersand, the name is non-empty and the rendered
text is not the raw substitution: the runes come out as HTML entities. -/
theorem render_raw_counterexample :
    escapedExample.Name ≠ "" ∧
    render escapedExample = .ok "\n# -*- coding: utf-8 -*-\n\n\"\"\"A&lt;B.\n\nit&#39;s 1&#43;1\n\n\"\"\"\n\nimport scrapy\n\n\nclass A&lt;BSpider(scrapy.Spider):\n\n    name = \x27A&lt;B\x27\n    start_urls = [ http://x.com/?a=1&amp;b=2 ]\n\n    def parse(self, response):\n        print(response.body)\n" ∧
    render escapedExample ≠ .ok (rawRender escapedExample) := by
  refine ⟨by decide, rfl, ?_⟩
  rw [render_eq]
  intro h
  have hp := ((escapedRender_eq_rawRender_iff _).1 (Except.ok.inj h)).1
  revert hp
  decide

/-- C1, amended: for every `Spider` with non-empty Name the rendered text is the
template with each placeholder replaced by the HTML-escaped value of its field,
and when Name, Doc and URL hold none of the seven replaced runes it is the
template with each placeholder replaced by the raw value of its field. -/
theorem render_raw_of_plain (s : Spider) (_hname : s.Name ≠ "") :
    render s = .ok (escapedRender s) ∧
    (htmlPlain s.Name ∧ htmlPlain s.Doc ∧ htmlPlain s.URL →
      render s = .ok (rawRender s) ∧
      rawRender s = segment0 ++ s.Name ++ segment1 ++ s.Doc ++ segment2 ++ s.Name
        ++ segment3 ++ s.Name ++ segment4 ++ s.URL ++ segment5) := by
  refine ⟨render_eq s, fun hp => ⟨?_, rawRender_eq s⟩⟩
  rw [render_eq, (escapedRender_eq_rawRender_iff s).2 hp]

/-- Witness of C1, amended, at the usage example. -/
theorem render_raw_of_plain_witness :
    (spiderOf usageExample).Name ≠ "" ∧
    render (spiderOf usageExample) = .ok (rawRender (spiderOf usageExample)) :=
  ⟨by decide,
   ((render_raw_of_plain (spiderOf usageExample) (by decide)).2
      ⟨by decide, by decide, by decide⟩).1⟩

/-- C2: when the name flag value is empty, whatever the other flags, the run ends
with exit code 1, standard output holds the diagnostic line only, none of the
template segments occurs in it, and it is the rendering of no `Spider`. -/
theorem main_empty_name_exit (cl : CommandLine) (h : flagString cl "name" "" = "") :
    (main cl).outcome = .exit 1 ∧
    (main cl).stdout = "error: a spider needs a name\n" ∧
    (∀ seg ∈ segments, ¬ occursIn seg (main cl).stdout) ∧
    ∀ s : Spider, render s ≠ .ok (main cl).stdout := by
  rw [main_of_empty cl h]
  refine ⟨rfl, rfl, by decide, ?_⟩
  intro s hr
  rw [render_eq] at hr
  have hd := congrArg String.data (Except.ok.inj hr)
  simp only [escapedRender, String.data_append, List.append_assoc] at hd
  have hh := congrArg List.head? hd
  simp [segment0] at hh

/-- Witness of C2: the name flag omitted, the other two given. -/
theorem main_empty_name_exit_witness :
    flagString (commandLine none (some "d") (some "u")) "name" "" = "" ∧
    (main (commandLine none (some "d") (some "u"))).outcome = .exit 1 :=
  ⟨by decide, (main_empty_name_exit (commandLine none (some "d") (some "u")) (by decide)).1⟩

/-- C3, as stated, fails: with an empty name flag nothing is written to standard
error and the diagnostic line is what standard output receives. -/
theorem diagnostic_stream_counterexample :
    flagString (commandLine (some "") none none) "name" "" = "" ∧
    (main (commandLine (some "") none none)).stderr = "" ∧
    (main (commandLine (some "") none none)).stdout = "error: a spider needs a name\n" := by
  decide

/-- C3, amended: when the name flag value is empty, the one-line diagnostic is
printed to standard output, standard error receives nothing, and the exit code
is 1. -/
theorem main_empty_name_diagnostic (cl : CommandLine) (h : flagString cl "name" "" = "") :
    (main cl).stdout = "error: a spider needs a name\n" ∧ (main cl).stderr = "" ∧
    (main cl).outcome = .exit 1 := by
  rw [main_of_empty cl h]
  exact ⟨rfl, rfl, rfl⟩

/-- Witness of C3, amended: the name flag given as the empty string. -/
theorem main_empty_name_diagnostic_witness :
    flagString (commandLine (some "") (some "d") none) "name" "" = "" ∧
    (main (commandLine (some "") (some "d") none)).stderr = "" :=
  ⟨by decide,
   (main_empty_name_diagnostic (commandLine (some "") (some "d") none) (by decide)).2.1⟩

set_option maxRecDepth 100000 in
/-- C4, as stated, fails: with name `x` and a description that spells the marker
for Doc, the name is non-empty, the run exits with code 0 and the marker occurs
in the output. -/
theorem marker_leak_counterexample :
    flagString markerExample "name" "" ≠ "" ∧
    (main markerExample).outcome = .exit 0 ∧
    "\x7b\x7bDoc\x7d\x7d" ∈ markers ∧
    occursIn "\x7b\x7bDoc\x7d\x7d" (main markerExample).stdout := by
  refine ⟨by decide, rfl, by decide, ?_⟩
  refine ⟨(segment0 ++ "x" ++ segment1).data,
    (segment2 ++ "x" ++ segment3 ++ "x" ++ segment4 ++ "www.example.com" ++ segment5).data, ?_⟩
  rfl

/-- C4, amended: for all non-empty name, any doc and any url none of which holds
one of the six marker texts, rendering succeeds and none of the six marker texts
occurs as a substring of the output. -/
theorem no_marker_of_marker_free (s : Spider) (_hname : s.Name ≠ "")
    (hfree : ∀ m ∈ markers,
      ¬ occursIn m s.Name ∧ ¬ occursIn m s.Doc ∧ ¬ occursIn m s.URL) :
    ∃ out, render s = .ok out ∧ ∀ m ∈ markers, ¬ occursIn m out := by
  refine ⟨escapedRender s, render_eq s, ?_⟩
  intro m hm hocc
  obtain ⟨hN, hD, hU⟩ := hfree m hm
  rcases (occurs_escapedRender_iff s m.data (markerLike_markers m hm)).1 hocc with h | h | h
  · exact hN h
  · exact hD h
  · exact hU h

/-- Witness of C4, amended, at the usage example. -/
theorem no_marker_of_marker_free_witness :
    (spiderOf usageExample).Name ≠ "" ∧
    ∃ out, render (spiderOf usageExample) = .ok out ∧ ∀ m ∈ markers, ¬ occursIn m out :=
  ⟨by decide,
   no_marker_of_marker_free (spiderOf usageExample) (by decide) (by decide)⟩

set_option maxRecDepth 100000 in
/-- C5: the usage example exits with code 0 and its output has the class line, the
name line and the start_urls line; the text up to the first triple quote and the
text from there to the next triple quote hold no triple quote, and `scrape MT`
occurs in the latter, the docstring. -/
theorem usageExample_end_to_end :
    (main usageExample).outcome = .exit 0 ∧
    hasLine (main usageExample).stdout "class MarineTrafficSpider(scrapy.Spider):" ∧
    hasLine (main usageExample).stdout "    name = \x27MarineTraffic\x27" ∧
    hasLine (main usageExample).stdout "    start_urls = [ www.mt.com ]" ∧
    ∃ pre mid post : String,
      (main usageExample).stdout = pre ++ tripleQuote ++ mid ++ tripleQuote ++ post ∧
      ¬ occursIn tripleQuote pre ∧ ¬ occursIn tripleQuote mid ∧
      occursIn "scrape MT" mid := by
  refine ⟨rfl, ?_, ?_, ?_, ?_⟩
  · exact hasLine_of_data_eq _ _
      (segment0 ++ "MarineTraffic" ++ segment1 ++ "scrape MT"
        ++ "\n\n\"\"\"\n\nimport scrapy\n\n").data
      ("\n    name = \x27MarineTraffic" ++ segment4 ++ "www.mt.com" ++ segment5).data
      (by decide) rfl
  · exact hasLine_of_data_eq _ _
      (segment0 ++ "MarineTraffic" ++ segment1 ++ "scrape MT" ++ segment2
        ++ "MarineTrafficSpider(scrapy.Spider):\n").data
      ("    start_urls = [ www.mt.com" ++ segment5).data
      (by decide) rfl
  · exact hasLine_of_data_eq _ _
      (segment0 ++ "MarineTraffic" ++ segment1 ++ "scrape MT" ++ segment2
        ++ "MarineTraffic" ++ segment3 ++ "MarineTraffic\x27").data
      "\n    def parse(self, response):\n        print(response.body)\n".data
      (by decide) rfl
  · refine ⟨"\n# -*- coding: utf-8 -*-\n\n", "MarineTraffic.\n\nscrape MT\n\n",
      "\n\nimport scrapy\n\n\nclass MarineTrafficSpider(scrapy.Spider):\n\n    name = \x27MarineTraffic\x27\n    start_urls = [ www.mt.com ]\n\n    def parse(self, response):\n        print(response.body)\n",
      rfl, by decide, by decide, by decide⟩

/-- C6: the template is the six literal segments with the five placeholders between
them, in order, and for every `Spider` the rendered text is the same six segments,
unmodified, around five inserted texts, of which the first, third and fourth
depend on Name only, the second on Doc only and the fifth on URL only. -/
theorem render_keeps_segments :
    spiderTemplate = segment0 ++ placeholderName ++ segment1 ++ placeholderDoc ++ segment2
      ++ placeholderName ++ segment3 ++ placeholderName ++ segment4 ++ placeholderURL
      ++ segment5 ∧
    ∃ x1 x2 x3 x4 x5 : String → String, ∀ s : Spider,
      render s = .ok (segment0 ++ x1 s.Name ++ segment1 ++ x2 s.Doc ++ segment2
        ++ x3 s.Name ++ segment3 ++ x4 s.Name ++ segment4 ++ x5 s.URL ++ segment5) :=
  ⟨rfl, htmlEscaper, htmlEscaper, htmlEscaper, htmlEscaper, htmlEscaper, render_eq⟩

/-- C7: the fixed template parses, executing the parsed template on any `Spider`
and any sink content raises no error, rendering returns text for every `Spider`,
and no command line makes `main` panic. -/
theorem template_never_fails :
    (∃ t, Parse spiderTemplate = .ok t ∧
      ∀ (s : Spider) (wr : List Char), (Execute t wr s).2 = none) ∧
    (∀ s : Spider, ∃ out, render s = .ok out) ∧
    ∀ (cl : CommandLine) (err : TemplateError), (main cl).outcome ≠ .panic err := by
  refine ⟨⟨spiderNodes, Parse_spiderTemplate, ?_⟩, fun s => ⟨_, render_eq s⟩, ?_⟩
  · intro s wr
    rw [Execute_spiderNodes]
  · intro cl err
    by_cases h : flagString cl "name" "" = ""
    · rw [main_of_empty cl h]
      simp
    · rw [main_of_nonempty cl h]
      simp

/-- C8: when the url flag is omitted and the name is non-empty, the `Spider` built
by `main` has URL `www.example.com`, the run exits with code 0 with the rendering
of that `Spider` on standard output, and the output holds `www.example.com`
verbatim, as the line `    start_urls = [ www.example.com ]`. -/
theorem url_default_rendered (cl : CommandLine) (hurl : cl "url" = none)
    (hname : flagString cl "name" "" ≠ "") :
    (spiderOf cl).URL = "www.example.com" ∧
    (main cl).outcome = .exit 0 ∧
    render (spiderOf cl) = .ok (main cl).stdout ∧
    occursIn "www.example.com" (main cl).stdout ∧
    hasLine (main cl).stdout "    start_urls = [ www.example.com ]" := by
  have hU : (spiderOf cl).URL = "www.example.com" := by
    simp [spiderOf, flagString, hurl]
  have hdata : (escapedRender (spiderOf cl)).data =
      (segment0 ++ htmlEscaper (spiderOf cl).Name ++ segment1 ++ htmlEscaper (spiderOf cl).Doc
        ++ segment2 ++ htmlEscaper (spiderOf cl).Name ++ segment3
        ++ htmlEscaper (spiderOf cl).Name ++ "\x27").data
      ++ '\n' :: ("    start_urls = [ www.example.com ]".data
      ++ '\n' :: "\n    def parse(self, response):\n        print(response.body)\n".data) := by
    simp only [escapedRender, hU, String.data_append, List.append_assoc]
    rfl
  rw [main_of_nonempty cl hname]
  refine ⟨hU, rfl, render_eq _, ?_, hasLine_of_data_eq _ _ _ _ (by decide) hdata⟩
  have hin : "www.example.com".data <:+: '\n' :: ("    start_urls = [ www.example.com ]".data
      ++ '\n' :: "\n    def parse(self, response):\n        print(response.body)\n".data) :=
    ⟨"\n    start_urls = [ ".data, segment5.data, rfl⟩
  exact hin.trans (List.IsSuffix.isInfix ⟨_, hdata.symm⟩)

/-- Witness of C8: name and doc given, url omitted. -/
theorem url_default_rendered_witness :
    commandLine (some "MarineTraffic") (some "scrape MT") none "url" = none ∧
    flagString (commandLine (some "MarineTraffic") (some "scrape MT") none) "name" "" ≠ "" ∧
    hasLine (main (commandLine (some "MarineTraffic") (some "scrape MT") none)).stdout
      "    start_urls = [ www.example.com ]" :=
  ⟨by decide, by decide,
   (url_default_rendered (commandLine (some "MarineTraffic") (some "scrape MT") none)
      (by decide) (by decide)).2.2.2.2⟩

set_option maxRecDepth 100000 in
/-- C9, as stated, fails: with the doc flag omitted and the name `A<B`, the run
exits with code 0 but the docstring opens with the escaped name, and the name
itself followed by a dot occurs nowhere after a triple quote; with the doc flag
omitted and a name that spells the placeholder for Doc, that placeholder text
occurs in the output. -/
theorem doc_default_counterexample :
    docOmittedEscaped "doc" = none ∧
    flagString docOmittedEscaped "name" "" ≠ "" ∧
    (main docOmittedEscaped).outcome = .exit 0 ∧
    (main docOmittedEscaped).stdout = "\n# -*- coding: utf-8 -*-\n\n\"\"\"A&lt;B.\n\n\n\n\"\"\"\n\nimport scrapy\n\n\nclass A&lt;BSpider(scrapy.Spider):\n\n    name = \x27A&lt;B\x27\n    start_urls = [ www.mt.com ]\n\n    def parse(self, response):\n        print(response.body)\n" ∧
    ¬ occursIn (tripleQuote ++ "A<B" ++ "." ++ "\n\n\n\n" ++ tripleQuote)
      (main docOmittedEscaped).stdout ∧
    docOmittedMarker "doc" = none ∧
    flagString docOmittedMarker "name" "" ≠ "" ∧
    placeholderDoc ∈ docMarkers ∧
    occursIn placeholderDoc (main docOmittedMarker).stdout := by
  have hout : (main docOmittedEscaped).stdout = "\n# -*- coding: utf-8 -*-\n\n\"\"\"A&lt;B.\n\n\n\n\"\"\"\n\nimport scrapy\n\n\nclass A&lt;BSpider(scrapy.Spider):\n\n    name = \x27A&lt;B\x27\n    start_urls = [ www.mt.com ]\n\n    def parse(self, response):\n        print(response.body)\n" := rfl
  refine ⟨by decide, by decide, rfl, hout, ?_, by decide, by decide, by decide, ?_⟩
  · rw [hout]
    decide
  · exact ⟨segment0.data, (segment1 ++ segment2 ++ placeholderDoc ++ segment3
      ++ placeholderDoc ++ segment4 ++ "www.mt.com" ++ segment5).data, rfl⟩

/-- C9, amended: when the doc flag is omitted and the name is non-empty, the run
exits with code 0, the description inserted is empty, and the output is the
coding header, the opening triple quote, the HTML-escaped name text, a dot, the
four newlines of the template, the closing triple quote and the rest of the
template; no triple quote occurs between the two; the escaped name text is the
name itself when the name holds none of the seven replaced runes; and a marker
text for Doc occurs in the output exactly when the name or the url holds it. -/
theorem doc_default_rendered (cl : CommandLine) (hdoc : cl "doc" = none)
    (hname : flagString cl "name" "" ≠ "") :
    (main cl).outcome = .exit 0 ∧
    (spiderOf cl).Doc = "" ∧
    (main cl).stdout = "\n# -*- coding: utf-8 -*-\n\n" ++ tripleQuote
      ++ htmlEscaper (spiderOf cl).Name ++ "." ++ "\n\n\n\n" ++ tripleQuote
      ++ "\n\nimport scrapy\n\n\nclass " ++ htmlEscaper (spiderOf cl).Name ++ segment3
      ++ htmlEscaper (spiderOf cl).Name ++ segment4 ++ htmlEscaper (spiderOf cl).URL
      ++ segment5 ∧
    ¬ occursIn tripleQuote (htmlEscaper (spiderOf cl).Name ++ "." ++ "\n\n\n\n") ∧
    (htmlPlain (spiderOf cl).Name → htmlEscaper (spiderOf cl).Name = (spiderOf cl).Name) ∧
    ∀ m ∈ docMarkers, (occursIn m (main cl).stdout ↔
      occursIn m (spiderOf cl).Name ∨ occursIn m (spiderOf cl).URL) := by
  have hD : (spiderOf cl).Doc = "" := by
    simp [spiderOf, flagString, hdoc]
  rw [main_of_nonempty cl hname]
  refine ⟨rfl, hD, ?_, ?_, (htmlEscaper_eq_self_iff _).2, ?_⟩
  · apply String.ext
    simp only [escapedRender, hD, String.data_append, List.append_assoc]
    rfl
  · intro hi
    have hq : '"' ∈ (htmlEscaper (spiderOf cl).Name ++ "." ++ "\n\n\n\n").data :=
      hi.subset (by decide)
    simp only [String.data_append, List.mem_append, htmlEscaper] at hq
    rcases hq with (hq | hq) | hq
    · exact quote_not_mem_htmlReplacer _ hq
    · revert hq; decide
    · revert hq; decide
  · intro m hm
    have hlike : ∀ k ∈ docMarkers, markerLike k.data := by decide
    have hiff := occurs_escapedRender_iff (spiderOf cl) m.data (hlike m hm)
    unfold occursIn
    rw [hiff, hD]
    constructor
    · rintro (h | h | h)
      · exact Or.inl h
      · exfalso
        have hnil : m.data = [] := List.infix_nil.1 h
        have hl := hlike m hm
        rw [hnil] at hl
        exact absurd hl (by decide)
      · exact Or.inr h
    · rintro (h | h)
      · exact Or.inl h
      · exact Or.inr (Or.inr h)

/-- Witness of C9, amended: name and url given, doc omitted. -/
theorem doc_default_rendered_witness :
    commandLine (some "MarineTraffic") none (some "www.mt.com") "doc" = none ∧
    flagString (commandLine (some "MarineTraffic") none (some "www.mt.com")) "name" "" ≠ "" ∧
    (main (commandLine (some "MarineTraffic") none (some "www.mt.com"))).outcome = .exit 0 :=
  ⟨by decide, by decide,
   (doc_default_rendered (commandLine (some "MarineTraffic") none (some "www.mt.com"))
      (by decide) (by decide)).1⟩

/-- C10: for every `Spider` the rendered text is the template with the HTML-escaped
value of the field at each placeholder; escaping replaces each rune by its
entity (ampersand, less-than, greater-than, double quote, single quote, plus) or
by U+FFFD (NUL) and keeps every other rune; and the rendered text equals the
raw-value substitution exactly when no field holds one of those seven runes. -/
theorem render_html_escaped (s : Spider) :
    render s = .ok (segment0 ++ htmlEscaper s.Name ++ segment1 ++ htmlEscaper s.Doc
      ++ segment2 ++ htmlEscaper s.Name ++ segment3 ++ htmlEscaper s.Name ++ segment4
      ++ htmlEscaper s.URL ++ segment5) ∧
    (∀ x : String, (htmlEscaper x).data = x.data.flatMap fun c => (escapedRune c).data) ∧
    (render s = .ok (rawRender s) ↔
      htmlPlain s.Name ∧ htmlPlain s.Doc ∧ htmlPlain s.URL) := by
  refine ⟨render_eq s, fun x => htmlReplacer_eq_flatMap x.data, ?_⟩
  rw [render_eq, ← escapedRender_eq_rawRender_iff]
  constructor
  · intro h
    exact Except.ok.inj h
  · intro h
    rw [h]

end Swissknife
